import Mathlib

/-!
Verification development for the PDF outline extractor in `src/main.py`.

The Span Source (PyMuPDF / fitz) is an external collaborator; a document is
modelled as the structured span data it delivers: pages of blocks of lines of
spans, each span carrying text, an (unrounded) font size, a font-descriptor
string and a bounding box.  Font sizes and coordinates are embedded as exact
rationals; Python's `round` (half to even) is modelled explicitly.  The two
regular expressions of the source are compiled, by hand, to explicit
character-list recognizers whose backtracking behaviour is worked out below.
All definitions are executable and reduce in the kernel.
-/

unseal Rat.mul Rat.inv Rat.sub Rat.add

/-! ### Character utilities (ASCII model of Python's str operations) -/

/-- Python regex class \s restricted to ASCII: space, tab, newline, carriage
return, vertical tab, form feed. -/
def pyIsSpace (c : Char) : Bool :=
  c == ' ' || c == '\t' || c == '\n' || c == '\r' ||
    c == Char.ofNat 11 || c == Char.ofNat 12

/-- Terminator class of the numbering regex: one character of the class
[\.\s-]. -/
def isTermChar (c : Char) : Bool :=
  c == '.' || pyIsSpace c || c == '-'

/-- Python regex class \w restricted to ASCII: letters, digits, underscore. -/
def isWordChar (c : Char) : Bool :=
  c.isAlphanum || c == '_'

/-- ASCII lower-casing of one character, modelling Python's str.lower on the
ASCII strings that occur in documents. -/
def lowerChar (c : Char) : Char :=
  if 'A' ≤ c ∧ c ≤ 'Z' then Char.ofNat (c.toNat + 32) else c

/-- Python str.lower. -/
def strLowerS (s : String) : String :=
  String.mk (s.data.map lowerChar)

/-- Python str.strip on a character list: drop whitespace at both ends. -/
def pyStrip (cs : List Char) : List Char :=
  ((cs.dropWhile pyIsSpace).reverse.dropWhile pyIsSpace).reverse

/-- Python str.strip. -/
def pyStripS (s : String) : String :=
  String.mk (pyStrip s.data)

/-- Collapse every maximal run of whitespace to a single space, modelling
re.sub of the pattern backslash-s-plus with a single space.  The flag records
whether the previous character was whitespace. -/
def collapseWsAux : Bool → List Char → List Char
  | _, [] => []
  | prev, c :: cs =>
    if pyIsSpace c then
      if prev then collapseWsAux true cs else ' ' :: collapseWsAux true cs
    else c :: collapseWsAux false cs

/-- Whitespace-run collapsing on strings. -/
def collapseWsS (s : String) : String :=
  String.mk (collapseWsAux false s.data)

/-- Python " ".join. -/
def joinSp : List String → String
  | [] => ""
  | [x] => x
  | x :: y :: xs => x ++ " " ++ joinSp (y :: xs)

/-- dict.fromkeys de-duplication: keep the first occurrence of each string,
in order.  The first argument is the set of strings already seen. -/
def dedupAux : List String → List String → List String
  | _, [] => []
  | seen, x :: xs =>
    if x ∈ seen then dedupAux seen xs else x :: dedupAux (x :: seen) xs

/-- Remove exact duplicates keeping first occurrences, as dict.fromkeys. -/
def dedupKeepFirst (xs : List String) : List String :=
  dedupAux [] xs

/-- Number of whitespace-separated words, as len of Python str.split with no
arguments.  The flag records whether we are inside a word. -/
def wordCountAux : Bool → List Char → Nat
  | _, [] => 0
  | inw, c :: cs =>
    if pyIsSpace c then wordCountAux false cs
    else (if inw then 0 else 1) + wordCountAux true cs

/-- Word count of a string, as len of str.split. -/
def wordCountS (s : String) : Nat :=
  wordCountAux false s.data

/-- Number of '.' characters in a string, as str.count of a dot. -/
def dotCountS (s : String) : Nat :=
  s.data.foldl (fun n c => if c == '.' then n + 1 else n) 0

/-- Substring search for a fixed needle at the head of a haystack. -/
def listStartsWith : List Char → List Char → Bool
  | [], _ => true
  | _ :: _, [] => false
  | a :: as, b :: bs => a == b && listStartsWith as bs

/-- Python's substring containment test for the fixed needle "bold". -/
def containsBoldMarker : List Char → Bool
  | [] => false
  | c :: cs => listStartsWith ['b', 'o', 'l', 'd'] (c :: cs) || containsBoldMarker cs

/-- Boldness test of the source: "bold" in font.lower(). -/
def isBoldFont (font : String) : Bool :=
  containsBoldMarker ((strLowerS font).data)

/-! ### The numbering regex

The source uses the pattern
caret, \s-star, group of ( digits with dotted digit groups | Chapter blank
digits | Appendix blank word-char ), then one character of [\.\s-] for the
match test, and the same group followed by [\.\s-]-star for stripping.

Backtracking semantics, worked out for the match test: after the leading
whitespace, the digit alternative succeeds exactly when there is at least one
digit and the character following the maximal digit run exists and lies in
the terminator class — a following '.' is itself in the class, so whether or
not further ".digits" groups extend the match is irrelevant to success, and a
shorter digit run is always followed by a digit, which is not in the class.
The Chapter and Appendix alternatives are literal and need no search. -/

/-- Literal "Chapter" at the head; returns the remainder. -/
def chapterTail : List Char → Option (List Char)
  | 'C' :: 'h' :: 'a' :: 'p' :: 't' :: 'e' :: 'r' :: rest => some rest
  | _ => none

/-- Literal "Appendix" at the head; returns the remainder. -/
def appendixTail : List Char → Option (List Char)
  | 'A' :: 'p' :: 'p' :: 'e' :: 'n' :: 'd' :: 'i' :: 'x' :: rest => some rest
  | _ => none

/-- True when the list is nonempty and its head is in the terminator class. -/
def headIsTerm : List Char → Bool
  | [] => false
  | c :: _ => isTermChar c

/-- Does re.match of the numbering pattern succeed on this text? -/
def matchesNumbering (cs : List Char) : Bool :=
  let rest := cs.dropWhile pyIsSpace
  let ds := rest.takeWhile Char.isDigit
  if !ds.isEmpty then headIsTerm (rest.drop ds.length)
  else
    match chapterTail rest with
    | some r =>
      match r with
      | c :: r2 =>
        let ds2 := r2.takeWhile Char.isDigit
        pyIsSpace c && !ds2.isEmpty && headIsTerm (r2.drop ds2.length)
      | [] => false
    | none =>
      match appendixTail rest with
      | some r =>
        match r with
        | c :: w :: r3 => pyIsSpace c && isWordChar w && headIsTerm r3
        | _ => false
      | none => false

/-- String version of the numbering match test. -/
def matchesNumberingS (s : String) : Bool :=
  matchesNumbering s.data

/-- Greedy consumption of ".digits" groups: while the text starts with a dot
followed by at least one digit, consume the dot and the maximal digit run.
The fuel argument dominates the length of the list, which shrinks by at least
two on each step. -/
def chainAux : Nat → List Char → List Char
  | 0, cs => cs
  | n + 1, cs =>
    match cs with
    | '.' :: rest =>
      let ds := rest.takeWhile Char.isDigit
      if ds.isEmpty then cs else chainAux n (rest.drop ds.length)
    | _ => cs

/-- Remainder of the text after the greedy match of the regex group, or none
when no alternative matches at the head. -/
def groupEnd (rest : List Char) : Option (List Char) :=
  let ds := rest.takeWhile Char.isDigit
  if !ds.isEmpty then some (chainAux rest.length (rest.drop ds.length))
  else
    match chapterTail rest with
    | some r =>
      match r with
      | c :: r2 =>
        let ds2 := r2.takeWhile Char.isDigit
        if pyIsSpace c && !ds2.isEmpty then some (r2.drop ds2.length) else none
      | [] => none
    | none =>
      match appendixTail rest with
      | some r =>
        match r with
        | c :: w :: r3 => if pyIsSpace c && isWordChar w then some r3 else none
        | _ => none
      | none => none

/-- re.sub of the stripping pattern with the empty string: remove leading
whitespace, the greedy group match and the following run of terminator
characters; leave the text unchanged when the group does not match. -/
def stripNumbering (cs : List Char) : List Char :=
  match groupEnd (cs.dropWhile pyIsSpace) with
  | some r => r.dropWhile isTermChar
  | none => cs

/-- Clean heading text of the source: strip the numbering prefix, then
Python str.strip. -/
def cleanTextS (s : String) : String :=
  pyStripS (String.mk (stripNumbering s.data))

/-! ### Python round (half to even) on exact rationals -/

/-- Python's round to an integer: round half to even. -/
def pyRound (q : ℚ) : ℤ :=
  let f := Rat.floor q
  let r := q - (f : ℚ)
  if r < 1 / 2 then f
  else if 1 / 2 < r then f + 1
  else if f % 2 = 0 then f else f + 1

/-- Absolute value of a rational, written out. -/
def ratAbs (q : ℚ) : ℚ :=
  if q < 0 then -q else q

/-! ### Data model: the structured span data of one document -/

/-- A bounding box: left, top, right, bottom, in page coordinates with the
origin at the top-left corner, so y1 is the bottom edge. -/
structure Rect where
  x0 : ℚ
  y0 : ℚ
  x1 : ℚ
  y1 : ℚ
deriving DecidableEq

/-- One span: a run of text of one font size and one font descriptor. -/
structure Span where
  text : String
  size : ℚ
  font : String
  bbox : Rect
deriving DecidableEq

instance : Inhabited Span := ⟨⟨"", 0, "", ⟨0, 0, 0, 0⟩⟩⟩

/-- One visual text line: its spans in reading order and its bounding box. -/
structure Line where
  spans : List Span
  bbox : Rect
deriving DecidableEq

/-- One block: a bounding box and the lines it contains; an image block is
modelled as a block with no lines. -/
structure Block where
  bbox : Rect
  lines : List Line
deriving DecidableEq

/-- One page: dimensions and blocks in reading order. -/
structure Page where
  width : ℚ
  height : ℚ
  blocks : List Block
deriving DecidableEq

instance : Inhabited Page := ⟨⟨0, 0, []⟩⟩

/-- One document: its pages in order. -/
structure Document where
  pages : List Page
deriving DecidableEq

/-- One outline entry of the produced result. -/
structure OutlineEntry where
  level : String
  text : String
  page : Nat
deriving DecidableEq

/-- The produced result: title and outline. -/
structure Result where
  title : String
  outline : List OutlineEntry
deriving DecidableEq

/-! ### Title Detector (find_document_title of the source) -/

/-- First scan of find_document_title: the maximum unrounded span size on the
page, starting from 0, taking blocks that have lines. -/
def maxSpanSize (p : Page) : ℚ :=
  p.blocks.foldl
    (fun m b =>
      if b.lines.isEmpty then m
      else
        b.lines.foldl
          (fun m2 l =>
            l.spans.foldl (fun m3 s => if m3 < s.size then s.size else m3) m2)
          m)
    0

/-- Keep a block for the second scan when its bottom edge lies strictly above
70 percent of the page height and it has lines. -/
def blockKeep (ph : ℚ) (b : Block) : Bool :=
  decide (b.bbox.y1 < ph * (7 / 10)) && !b.lines.isEmpty

/-- Keep a span as a title candidate when its unrounded size differs from the
maximum by less than 1. -/
def spanKeep (m : ℚ) (s : Span) : Bool :=
  decide (ratAbs (s.size - m) < 1)

/-- Second scan of find_document_title, mirroring the nested loops of the
source: the trimmed texts of qualifying spans of qualifying blocks, appended
in encounter order. -/
def titleCandidates (p : Page) : List String :=
  p.blocks.foldl
    (fun acc b =>
      if blockKeep p.height b then
        b.lines.foldl
          (fun acc2 l =>
            l.spans.foldl
              (fun acc3 s =>
                if spanKeep (maxSpanSize p) s then acc3 ++ [pyStripS s.text]
                else acc3)
              acc2)
          acc
      else acc)
    []

/-- find_document_title of the source, on page one's data. -/
def find_document_title (p : Page) : String :=
  if (titleCandidates p).isEmpty then "Untitled Document"
  else pyStripS (collapseWsS (joinSp (dedupKeepFirst (titleCandidates p))))

/-! ### Font Size Profiler -/

/-- Every rounded span size of the document, in document order, as generated
for the sizes Counter of the source. -/
def allRoundedSizes (doc : Document) : List ℤ :=
  doc.pages.flatMap
    (fun p => p.blocks.flatMap
      (fun b => b.lines.flatMap
        (fun l => l.spans.map (fun s => pyRound s.size))))

/-- Occurrence count of one value in a list. -/
def countOf (xs : List ℤ) (v : ℤ) : Nat :=
  xs.foldl (fun n x => if x = v then n + 1 else n) 0

/-- First-occurrence de-duplication of the size list, keeping encounter
order; the first argument is the set of values already seen. -/
def firstOccAux : List ℤ → List ℤ → List ℤ
  | _, [] => []
  | seen, x :: xs =>
    if x ∈ seen then firstOccAux seen xs else x :: firstOccAux (x :: seen) xs

/-- The Counter's keys in insertion order: the distinct rounded sizes in
first-occurrence order. -/
def firstOccurrences (xs : List ℤ) : List ℤ :=
  firstOccAux [] xs

/-- Counter.most_common(1): the key with the maximal count; ties are broken
in favour of the earliest-inserted key. -/
def mostCommon (xs : List ℤ) : ℤ :=
  (firstOccurrences xs).foldl
    (fun best v => if countOf xs best < countOf xs v then v else best)
    (firstOccurrences xs).headI

/-- Descending insertion of one value into a descending-sorted list. -/
def insertDesc (v : ℤ) : List ℤ → List ℤ
  | [] => [v]
  | x :: xs => if x ≤ v then v :: x :: xs else x :: insertDesc v xs

/-- Descending insertion sort, modelling sorted with reverse=True on a list
of distinct integers. -/
def sortDesc : List ℤ → List ℤ
  | [] => []
  | x :: xs => insertDesc x (sortDesc xs)

/-- body_size of the source: the most common rounded size of the document. -/
def bodySizeOf (doc : Document) : ℤ :=
  mostCommon (allRoundedSizes doc)

/-- heading_sizes of the source: the distinct rounded sizes greater than the
body size, sorted descending. -/
def headingSizesOf (doc : Document) : List ℤ :=
  sortDesc ((firstOccurrences (allRoundedSizes doc)).filter
    (fun s => decide (bodySizeOf doc < s)))

/-- heading_sizes truncated to its first three entries. -/
def keptSizes (doc : Document) : List ℤ :=
  (headingSizesOf doc).take 3

/-- size_to_level of the source: the kept sizes paired with H1, H2, H3 by
rank. -/
def sizeToLevelOf (doc : Document) : List (ℤ × String) :=
  (keptSizes doc).enum.map (fun p => (p.2, "H" ++ toString (p.1 + 1)))

/-! ### Heading Classifier -/

/-- Concatenated text of a line: the span texts joined with single spaces and
trimmed, as in the source. -/
def lineTextOf (l : Line) : String :=
  pyStripS (joinSp (l.spans.map Span.text))

/-- Level of the numbered-heading branch: H of the total dot count plus two,
clamped to the range 2 to 4. -/
def numberedLevel (txt : String) : String :=
  "H" ++ toString (min (max 2 (dotCountS txt + 2)) 4)

/-- The per-line level decision of the source, lines 97 to 116: the
numbered-plus-bold check, then the ranked-size-plus-bold check, then the
bold-large-short fallback; the first check that fires wins. -/
def classifyLevel (map : List (ℤ × String)) (body : ℤ) (txt : String)
    (fontSize : ℤ) (bold : Bool) : Option String :=
  if matchesNumberingS txt && bold then some (numberedLevel txt)
  else
    match map.lookup fontSize, bold with
    | some lv, true => some lv
    | _, _ =>
      if bold && decide (body < fontSize) && decide (wordCountS txt < 10) then
        some "H3"
      else none

/-- Accumulated outline together with the de-duplication set of lowercase
texts already accepted as title or heading. -/
structure PassState where
  outline : List OutlineEntry
  processed : List String
deriving DecidableEq

/-- Appending one accepted heading: the outline entry and the raw lowercase
line text recorded for de-duplication. -/
def emitEntry (st : PassState) (lv : String) (txt : String) (pageNum : Nat)
    (lowerTxt : String) : PassState :=
  ⟨st.outline ++ [⟨lv, txt, pageNum⟩], st.processed ++ [lowerTxt]⟩

/-- The body of the per-line loop of process_pdf: reject empty, short or
already-processed lines, classify the rest by the first span's rounded size
and boldness, and emit an entry with the prefix-stripped text when a level
was assigned. -/
def headingStep (map : List (ℤ × String)) (body : ℤ) (pageNum : Nat)
    (st : PassState) (l : Line) : PassState :=
  if lineTextOf l = "" ∨ (lineTextOf l).length < 3 ∨
      strLowerS (lineTextOf l) ∈ st.processed then st
  else
    match classifyLevel map body (lineTextOf l) (pyRound (l.spans.headI).size)
        (isBoldFont (l.spans.headI).font) with
    | none => st
    | some lv =>
      emitEntry st lv (cleanTextS (lineTextOf l)) pageNum
        (strLowerS (lineTextOf l))

/-- The Span Source's clip restriction, modelled from the spec: only lines
lying inside the vertical band from 10 to 90 percent of the page height
(full width) are delivered to the heading pass. -/
def inClipBand (ph : ℚ) (l : Line) : Bool :=
  decide (ph * (1 / 10) ≤ l.bbox.y0) && decide (l.bbox.y1 ≤ ph * (9 / 10))

/-- The lines of one page delivered by the clipped extraction, in reading
order. -/
def clippedLines (p : Page) : List Line :=
  p.blocks.flatMap (fun b => b.lines.filter (inClipBand p.height))

/-- The full line sequence of the heading pass: every clipped line of every
page, paired with its 1-based page number, in document order. -/
def linesSeq (doc : Document) : List (Nat × Line) :=
  doc.pages.enum.flatMap
    (fun ip => (clippedLines ip.2).map (fun l => (ip.1 + 1, l)))

/-- The initial pass state: empty outline, de-duplication set seeded with the
lowercase title. -/
def initState (title : String) : PassState :=
  ⟨[], [strLowerS title]⟩

/-- Folding the per-line step over a line sequence. -/
def runPass (map : List (ℤ × String)) (body : ℤ) (st : PassState)
    (ls : List (Nat × Line)) : PassState :=
  ls.foldl (fun s pl => headingStep map body pl.1 s pl.2) st

/-- process_pdf of the source: empty-document guard, title detection,
no-spans short-circuit, then the heading pass over the clipped lines. -/
def process_pdf (doc : Document) : Result :=
  if doc.pages.isEmpty then { title := "Empty Document", outline := [] }
  else
    if (allRoundedSizes doc).isEmpty then
      { title := find_document_title doc.pages.headI, outline := [] }
    else
      { title := find_document_title doc.pages.headI,
        outline :=
          (runPass (sizeToLevelOf doc) (bodySizeOf doc)
            (initState (find_document_title doc.pages.headI))
            (linesSeq doc)).outline }

/-! ### Concrete documents used by the claim theorems -/

/-- A one-span line spanning the page width between two vertical
coordinates. -/
def mkLine1 (t : String) (sz : ℚ) (f : String) (a b : ℚ) : Line :=
  ⟨[⟨t, sz, f, ⟨72, a, 540, b⟩⟩], ⟨72, a, 540, b⟩⟩

/-- A block holding exactly one line. -/
def mkBlock1 (l : Line) : Block :=
  ⟨l.bbox, [l]⟩

/-- The three-page document of the end-to-end scenario: a 28pt title span on
page one, 12pt body text throughout, a bold 18pt line "1. Overview" on page
two and a bold 16pt line "1.1 Details" on page three, all inside the 10 to
90 percent band. -/
def scenarioDoc : Document :=
  ⟨[⟨612, 792,
      [mkBlock1 (mkLine1 "Annual Report 2024" 28 "TimesNewRoman" 100 130),
       mkBlock1 (mkLine1 "This is some body text for page one." 12 "TimesNewRoman" 200 215),
       mkBlock1 (mkLine1 "More body text follows here on page one." 12 "TimesNewRoman" 220 235)]⟩,
    ⟨612, 792,
      [mkBlock1 (mkLine1 "1. Overview" 18 "Arial-Bold" 150 170),
       mkBlock1 (mkLine1 "Body text of the overview section." 12 "TimesNewRoman" 200 215)]⟩,
    ⟨612, 792,
      [mkBlock1 (mkLine1 "1.1 Details" 16 "Arial-Bold" 150 166),
       mkBlock1 (mkLine1 "Body text of the details section." 12 "TimesNewRoman" 200 215)]⟩]⟩

/-- A document whose page two carries a bold numbered line whose stripped
text is exactly the title of page one. -/
def titleEchoDoc : Document :=
  ⟨[⟨612, 792,
      [mkBlock1 (mkLine1 "Annual Report 2024" 28 "TimesNewRoman" 100 130),
       mkBlock1 (mkLine1 "This is some body text for page one." 12 "TimesNewRoman" 200 215),
       mkBlock1 (mkLine1 "More body text follows here on page one." 12 "TimesNewRoman" 220 235)]⟩,
    ⟨612, 792,
      [mkBlock1 (mkLine1 "1. Annual Report 2024" 18 "Arial-Bold" 150 170),
       mkBlock1 (mkLine1 "Body text of the second page." 12 "TimesNewRoman" 200 215)]⟩]⟩

/-- The title line of the one-page witness document below. -/
def reportTitleLine : Line :=
  mkLine1 "Report Title" 30 "TimesNewRoman" 100 130

/-- The body line of the one-page witness document below. -/
def reportBodyLine : Line :=
  mkLine1 "Some ordinary body text." 12 "TimesNewRoman" 200 215

/-- A one-page document whose title line also lies inside the clip band, so
the heading pass encounters a line whose lowercase text equals the lowercase
title. -/
def reportDoc : Document :=
  ⟨[⟨612, 792, [mkBlock1 reportTitleLine, mkBlock1 reportBodyLine]⟩]⟩

/-- The styled line reading exactly "Untitled Document". -/
def untitledLine : Line :=
  mkLine1 "Untitled Document" 20 "Arial-Bold" 150 170

/-- A document with an empty first page (hence no title candidates) whose
second page carries a bold large line reading "Untitled Document". -/
def untitledDoc : Document :=
  ⟨[⟨612, 792, []⟩,
    ⟨612, 792,
      [mkBlock1 untitledLine,
       mkBlock1 (mkLine1 "Plain body text to set the body size." 12 "TimesNewRoman" 200 215),
       mkBlock1 (mkLine1 "More plain body text on this page." 12 "TimesNewRoman" 220 235)]⟩]⟩

/-- A one-page document with two distinct numbered lines whose stripped
texts coincide. -/
def dupDoc : Document :=
  ⟨[⟨612, 792,
      [mkBlock1 (mkLine1 "My Doc" 30 "TimesNewRoman" 100 130),
       mkBlock1 (mkLine1 "1. Summary" 18 "Arial-Bold" 150 168),
       mkBlock1 (mkLine1 "2. Summary" 18 "Arial-Bold" 180 198),
       mkBlock1 (mkLine1 "Filler body text sentence one." 12 "TimesNewRoman" 300 315),
       mkBlock1 (mkLine1 "Filler body text sentence two." 12 "TimesNewRoman" 320 335),
       mkBlock1 (mkLine1 "Filler body text sentence three." 12 "TimesNewRoman" 340 355)]⟩]⟩

/-- A one-page document with blocks but no spans anywhere: one image block
without lines and one block whose line has no spans. -/
def spanlessDoc : Document :=
  ⟨[⟨612, 792,
      [⟨⟨72, 100, 540, 200⟩, []⟩,
       ⟨⟨72, 250, 540, 280⟩, [⟨[], ⟨72, 250, 540, 280⟩⟩]⟩]⟩]⟩

/-- A page and a line used by the margin-exclusion witness: the line sits
entirely inside the top 10 percent of the page. -/
def headerLine : Line :=
  mkLine1 "Confidential Header" 18 "Arial-Bold" 10 30

/-- The page holding the header line together with one in-band line. -/
def headerPage : Page :=
  ⟨612, 792, [mkBlock1 headerLine, mkBlock1 reportBodyLine]⟩

/-- The one-page document around the margin-exclusion witness. -/
def headerDoc : Document :=
  ⟨[headerPage]⟩

/-- The bold 18pt line of the ranking witness document below. -/
def rankLine : Line :=
  mkLine1 "Methodology" 18 "Arial-Bold" 150 168

/-- A one-page document with body size 12 and exactly four distinct larger
sizes 20, 18, 16, 14, so the kept heading sizes are 20, 18, 16. -/
def rankDoc : Document :=
  ⟨[⟨612, 792,
      [mkBlock1 (mkLine1 "Big Title Here" 20 "TimesNewRoman" 100 130),
       mkBlock1 rankLine,
       mkBlock1 (mkLine1 "Sixteen point line." 16 "TimesNewRoman" 200 216),
       mkBlock1 (mkLine1 "Fourteen point line." 14 "TimesNewRoman" 230 244),
       mkBlock1 (mkLine1 "Body text sentence number one." 12 "TimesNewRoman" 300 315),
       mkBlock1 (mkLine1 "Body text sentence number two." 12 "TimesNewRoman" 320 335),
       mkBlock1 (mkLine1 "Body text sentence number three." 12 "TimesNewRoman" 340 355),
       mkBlock1 (mkLine1 "Body text sentence number four." 12 "TimesNewRoman" 360 375)]⟩]⟩

/-! ### Helper lemmas about the sorting and de-duplication utilities -/

theorem mem_insertDesc {a v : ℤ} : ∀ {xs : List ℤ},
    a ∈ insertDesc v xs ↔ a = v ∨ a ∈ xs := by
  intro xs
  induction xs with
  | nil => simp [insertDesc]
  | cons x xs ih =>
    simp only [insertDesc]
    split
    · simp
    · simp only [List.mem_cons, ih]
      tauto

theorem mem_sortDesc {a : ℤ} : ∀ {xs : List ℤ}, a ∈ sortDesc xs ↔ a ∈ xs := by
  intro xs
  induction xs with
  | nil => simp [sortDesc]
  | cons x xs ih => simp [sortDesc, mem_insertDesc, ih]

theorem pairwise_insertDesc {v : ℤ} : ∀ {xs : List ℤ},
    xs.Pairwise (fun a b => b ≤ a) →
    (insertDesc v xs).Pairwise (fun a b => b ≤ a) := by
  intro xs
  induction xs with
  | nil => simp [insertDesc]
  | cons x xs ih =>
    intro h
    rcases List.pairwise_cons.mp h with ⟨hx, hxs⟩
    simp only [insertDesc]
    split
    · rename_i hle
      refine List.pairwise_cons.mpr ⟨?_, h⟩
      intro y hy
      rcases List.mem_cons.mp hy with rfl | hy2
      · exact hle
      · exact le_trans (hx y hy2) hle
    · rename_i hgt
      refine List.pairwise_cons.mpr ⟨?_, ih hxs⟩
      intro y hy
      rcases mem_insertDesc.mp hy with rfl | hy2
      · exact le_of_not_le hgt
      · exact hx y hy2

theorem pairwise_sortDesc : ∀ (xs : List ℤ),
    (sortDesc xs).Pairwise (fun a b => b ≤ a) := by
  intro xs
  induction xs with
  | nil => simp [sortDesc]
  | cons x xs ih => exact pairwise_insertDesc ih

theorem nodup_insertDesc {v : ℤ} : ∀ {xs : List ℤ},
    v ∉ xs → xs.Nodup → (insertDesc v xs).Nodup := by
  intro xs
  induction xs with
  | nil => simp [insertDesc]
  | cons x xs ih =>
    intro hv h
    simp only [insertDesc]
    split
    · exact List.nodup_cons.mpr ⟨hv, h⟩
    · rcases List.nodup_cons.mp h with ⟨hx, hxs⟩
      refine List.nodup_cons.mpr ⟨?_, ih (fun hm => hv (List.mem_cons_of_mem x hm)) hxs⟩
      intro hm
      rcases mem_insertDesc.mp hm with rfl | hm2
      · exact hv (List.mem_cons_self x xs)
      · exact hx hm2

theorem nodup_sortDesc : ∀ {xs : List ℤ}, xs.Nodup → (sortDesc xs).Nodup := by
  intro xs
  induction xs with
  | nil => simp [sortDesc]
  | cons x xs ih =>
    intro h
    rcases List.nodup_cons.mp h with ⟨hx, hxs⟩
    exact nodup_insertDesc (fun hm => hx (mem_sortDesc.mp hm)) (ih hxs)

theorem mem_of_mem_firstOccAux {a : ℤ} : ∀ {xs seen : List ℤ},
    a ∈ firstOccAux seen xs → a ∈ xs := by
  intro xs
  induction xs with
  | nil => intro seen h; simp [firstOccAux] at h
  | cons x xs ih =>
    intro seen h
    simp only [firstOccAux] at h
    split at h
    · exact List.mem_cons_of_mem x (ih h)
    · rcases List.mem_cons.mp h with rfl | h2
      · exact List.mem_cons_self a xs
      · exact List.mem_cons_of_mem x (ih h2)

theorem mem_firstOccAux_of_mem {a : ℤ} : ∀ {xs seen : List ℤ},
    a ∈ xs → a ∉ seen → a ∈ firstOccAux seen xs := by
  intro xs
  induction xs with
  | nil => intro seen h _; simp at h
  | cons x xs ih =>
    intro seen h hs
    simp only [firstOccAux]
    split
    · rename_i hx
      rcases List.mem_cons.mp h with rfl | h2
      · exact absurd hx hs
      · exact ih h2 hs
    · rcases List.mem_cons.mp h with rfl | h2
      · exact List.mem_cons_self a _
      · by_cases hax : a = x
        · subst hax; exact List.mem_cons_self a _
        · exact List.mem_cons_of_mem x
            (ih h2 (by simp [List.mem_cons, hax, hs]))

theorem nodup_firstOccAux : ∀ (xs seen : List ℤ),
    (firstOccAux seen xs).Nodup ∧ ∀ a ∈ firstOccAux seen xs, a ∉ seen := by
  intro xs
  induction xs with
  | nil => intro seen; simp [firstOccAux]
  | cons x xs ih =>
    intro seen
    simp only [firstOccAux]
    split
    · exact ih seen
    · rename_i hx
      rcases ih (x :: seen) with ⟨hnd, hout⟩
      constructor
      · refine List.nodup_cons.mpr ⟨?_, hnd⟩
        intro hm
        exact hout x hm (List.mem_cons_self x seen)
      · intro a ha
        rcases List.mem_cons.mp ha with rfl | h2
        · exact hx
        · intro hs
          exact hout a h2 (List.mem_cons_of_mem x hs)

theorem headingSizes_pairwise_gt (doc : Document) :
    (headingSizesOf doc).Pairwise (fun a b => b < a) := by
  have hge := pairwise_sortDesc
    ((firstOccurrences (allRoundedSizes doc)).filter
      (fun s => decide (bodySizeOf doc < s)))
  have hnd : (headingSizesOf doc).Nodup := by
    apply nodup_sortDesc
    exact List.Nodup.filter _ (nodup_firstOccAux (allRoundedSizes doc) []).1
  have := List.Pairwise.and hge hnd
  exact this.imp (fun h => lt_of_le_of_ne h.1 (Ne.symm h.2))

theorem headingSizes_mem_gt (doc : Document) :
    ∀ s ∈ headingSizesOf doc, bodySizeOf doc < s := by
  intro s hs
  have := mem_sortDesc.mp hs
  rcases List.mem_filter.mp this with ⟨_, hp⟩
  exact of_decide_eq_true hp

theorem mem_headingSizes_of_mem (doc : Document) {s : ℤ}
    (h1 : s ∈ allRoundedSizes doc) (h2 : bodySizeOf doc < s) :
    s ∈ headingSizesOf doc := by
  apply mem_sortDesc.mpr
  apply List.mem_filter.mpr
  exact ⟨mem_firstOccAux_of_mem h1 (by simp), by simpa using h2⟩

/-! ### Helper lemmas about the heading pass -/

theorem headingStep_skip {map : List (ℤ × String)} {body : ℤ} {p : Nat}
    {st : PassState} {l : Line}
    (h : strLowerS (lineTextOf l) ∈ st.processed) :
    headingStep map body p st l = st := by
  unfold headingStep
  rw [if_pos (Or.inr (Or.inr h))]

theorem headingStep_processed_mem {map : List (ℤ × String)} {body : ℤ}
    {p : Nat} {st : PassState} {l : Line} {x : String}
    (h : x ∈ st.processed) :
    x ∈ (headingStep map body p st l).processed := by
  unfold headingStep
  split
  · exact h
  · split
    · exact h
    · exact List.mem_append_left _ h

theorem runPass_processed_mem {map : List (ℤ × String)} {body : ℤ}
    {x : String} : ∀ {ls : List (Nat × Line)} {st : PassState},
    x ∈ st.processed → x ∈ (runPass map body st ls).processed := by
  intro ls
  induction ls with
  | nil => intro st h; exact h
  | cons pl ls ih =>
    intro st h
    exact ih (headingStep_processed_mem h)

theorem runPass_append (map : List (ℤ × String)) (body : ℤ) (st : PassState)
    (l1 l2 : List (Nat × Line)) :
    runPass map body st (l1 ++ l2) = runPass map body (runPass map body st l1) l2 :=
  List.foldl_append _ _ _ _

/-! ### Characterization of the title-candidate scan -/

/-- Generic shape of an appending fold. -/
theorem foldl_append_eq {α β : Type} (g : α → List β) :
    ∀ (xs : List α) (acc : List β),
    xs.foldl (fun a x => a ++ g x) acc = acc ++ xs.flatMap g := by
  intro xs
  induction xs with
  | nil => intro acc; simp
  | cons x xs ih => intro acc; simp [ih, List.flatMap_cons]

/-- A conditional contribution inside an appending fold. -/
theorem ite_append_nil {β : Type} (c : Prop) [Decidable c] (a x : List β) :
    (if c then a ++ x else a) = a ++ (if c then x else []) := by
  split <;> simp

/-- Conditional flatMap as flatMap over a filter. -/
theorem flatMap_ite_filter {α β : Type} (p : α → Bool) (g : α → List β) :
    ∀ xs : List α,
    (xs.flatMap fun x => if p x then g x else []) = (xs.filter p).flatMap g := by
  intro xs
  induction xs with
  | nil => simp
  | cons x xs ih =>
    by_cases h : p x <;> simp [List.filter_cons, h, ih]

/-- The span-level fold of the title scan collects the trimmed texts of the
spans passing the size test, in order. -/
theorem spanFold_eq (m : ℚ) : ∀ (ss : List Span) (acc : List String),
    ss.foldl
      (fun acc3 s => if spanKeep m s then acc3 ++ [pyStripS s.text] else acc3)
      acc
      = acc ++ (ss.filter (spanKeep m)).map (fun s => pyStripS s.text) := by
  intro ss
  induction ss with
  | nil => intro acc; simp
  | cons s ss ih =>
    intro acc
    by_cases h : spanKeep m s <;> simp [List.filter_cons, h, ih]

/-- The title candidates, written with filters and flat maps: the trimmed
texts of spans within 1 of the maximal size, from blocks with lines whose
bottom edge lies in the top 70 percent of the page, in encounter order. -/
def titleCandidatesSpec (p : Page) : List String :=
  (p.blocks.filter (blockKeep p.height)).flatMap
    (fun b => b.lines.flatMap
      (fun l => (l.spans.filter (spanKeep (maxSpanSize p))).map
        (fun s => pyStripS s.text)))

theorem titleCandidates_eq_spec (p : Page) :
    titleCandidates p = titleCandidatesSpec p := by
  unfold titleCandidates titleCandidatesSpec
  simp only [spanFold_eq, foldl_append_eq, ite_append_nil, flatMap_ite_filter]
  simp [List.map_eq_flatMap]

/-! ### The no-spans case -/

theorem allRoundedSizes_eq_nil {doc : Document}
    (h : ∀ pg ∈ doc.pages, ∀ b ∈ pg.blocks, ∀ l ∈ b.lines, l.spans = []) :
    allRoundedSizes doc = [] := by
  unfold allRoundedSizes
  rw [List.flatMap_eq_nil_iff]
  intro p hp
  rw [List.flatMap_eq_nil_iff]
  intro b hb
  rw [List.flatMap_eq_nil_iff]
  intro l hl
  rw [h p hp b hb l hl]
  rfl

/-! ### Claim theorems -/

/-- C1 (counterexample): for the three-page document of the spec's test
scenario — 28pt "Annual Report 2024" on page one, 12pt body size, bold 18pt
"1. Overview" on page two, bold 16pt "1.1 Details" on page three —
process_pdf does not return the claimed outline with level H1 for
"Overview": the numbered check fires before the size ranking and assigns H3
to both lines. -/
theorem scenario_claimed_result_refuted :
    process_pdf scenarioDoc ≠
      { title := "Annual Report 2024",
        outline := [⟨"H1", "Overview", 2⟩, ⟨"H3", "Details", 3⟩] } := by
  decide

/-- C1 (amended): for the scenario document, process_pdf returns the title
"Annual Report 2024" and the outline with H3 for "Overview" on page 2 and
H3 for "Details" on page 3, in that order: both lines match the numbering
pattern with one dot in their full text, so each receives level H of
clamp(1+2, 2, 4) = 3 before the size ranking is ever consulted. -/
theorem scenario_end_to_end :
    process_pdf scenarioDoc =
      { title := "Annual Report 2024",
        outline := [⟨"H3", "Overview", 2⟩, ⟨"H3", "Details", 3⟩] } := by
  decide

/-- C2: every line considered by the heading classifier (non-empty, of
length at least 3, not in the de-duplication set) whose text matches the
numbering pattern and whose first span is bold is emitted with level H of
clamp(D+2, 2, 4), where D is the total number of dots in the full line
text. -/
theorem numbering_depth_law (map : List (ℤ × String)) (body : ℤ)
    (pageNum : Nat) (st : PassState) (l : Line)
    (hg : ¬(lineTextOf l = "" ∨ (lineTextOf l).length < 3 ∨
      strLowerS (lineTextOf l) ∈ st.processed))
    (hm : matchesNumberingS (lineTextOf l) = true)
    (hb : isBoldFont (l.spans.headI).font = true) :
    headingStep map body pageNum st l =
      emitEntry st ("H" ++ toString (min (max 2 (dotCountS (lineTextOf l) + 2)) 4))
        (cleanTextS (lineTextOf l)) pageNum (strLowerS (lineTextOf l)) := by
  unfold headingStep
  rw [if_neg hg]
  simp [classifyLevel, hm, hb, numberedLevel]

/-- C2 (witness): a concrete bold numbered line with three dots in its full
text is emitted at level H4 = H of clamp(3+2, 2, 4). -/
theorem numbering_depth_law_witness :
    (¬(lineTextOf (mkLine1 "1.2 Model checking vs. testing" 18 "Helvetica-Bold" 100 118) = "" ∨
        (lineTextOf (mkLine1 "1.2 Model checking vs. testing" 18 "Helvetica-Bold" 100 118)).length < 3 ∨
        strLowerS (lineTextOf (mkLine1 "1.2 Model checking vs. testing" 18 "Helvetica-Bold" 100 118)) ∈
          (⟨[], ["seed line"]⟩ : PassState).processed)) ∧
    headingStep [] 12 7 ⟨[], ["seed line"]⟩
        (mkLine1 "1.2 Model checking vs. testing" 18 "Helvetica-Bold" 100 118) =
      emitEntry ⟨[], ["seed line"]⟩
        ("H" ++ toString (min (max 2 (dotCountS (lineTextOf
          (mkLine1 "1.2 Model checking vs. testing" 18 "Helvetica-Bold" 100 118)) + 2)) 4))
        (cleanTextS (lineTextOf (mkLine1 "1.2 Model checking vs. testing" 18 "Helvetica-Bold" 100 118)))
        7
        (strLowerS (lineTextOf (mkLine1 "1.2 Model checking vs. testing" 18 "Helvetica-Bold" 100 118))) :=
  ⟨by decide,
    numbering_depth_law [] 12 7 ⟨[], ["seed line"]⟩
      (mkLine1 "1.2 Model checking vs. testing" 18 "Helvetica-Bold" 100 118)
      (by decide) (by decide) (by decide)⟩

/-- C5: a line whose text is empty after trimming, or shorter than 3
characters, or whose lowercase text is already in the de-duplication set,
produces no outline entry and leaves the pass state unchanged. -/
theorem short_or_duplicate_rejected (map : List (ℤ × String)) (body : ℤ)
    (pageNum : Nat) (st : PassState) (l : Line)
    (h : lineTextOf l = "" ∨ (lineTextOf l).length < 3 ∨
      strLowerS (lineTextOf l) ∈ st.processed) :
    headingStep map body pageNum st l = st := by
  unfold headingStep
  rw [if_pos h]

/-- C5 (witness): a concrete two-character bold line is rejected without
any effect on the state. -/
theorem short_or_duplicate_rejected_witness :
    (lineTextOf (mkLine1 "Hi" 20 "Arial-Bold" 100 110) = "" ∨
      (lineTextOf (mkLine1 "Hi" 20 "Arial-Bold" 100 110)).length < 3 ∨
      strLowerS (lineTextOf (mkLine1 "Hi" 20 "Arial-Bold" 100 110)) ∈
        (⟨[], []⟩ : PassState).processed) ∧
    headingStep [] 0 1 ⟨[], []⟩ (mkLine1 "Hi" 20 "Arial-Bold" 100 110) = ⟨[], []⟩ :=
  ⟨Or.inr (Or.inl (by decide)),
    short_or_duplicate_rejected [] 0 1 ⟨[], []⟩
      (mkLine1 "Hi" 20 "Arial-Bold" 100 110) (Or.inr (Or.inl (by decide)))⟩

/-- C7: the title equals "Untitled Document" when the candidate scan is
empty, and otherwise the candidates — the trimmed texts of spans within 1
of the page maximum, from blocks with lines whose bottom edge lies in the
top 70 percent of the page, in encounter order — de-duplicated keeping
first occurrences, joined with single spaces, whitespace-collapsed and
trimmed. -/
theorem title_construction (p : Page) :
    find_document_title p =
      if titleCandidatesSpec p = [] then "Untitled Document"
      else pyStripS (collapseWsS (joinSp (dedupKeepFirst (titleCandidatesSpec p)))) := by
  unfold find_document_title
  rw [titleCandidates_eq_spec]
  rcases h : titleCandidatesSpec p with _ | ⟨c, cs⟩
  · rw [if_pos rfl]
    rfl
  · rw [if_neg (by simp)]
    rw [if_neg (by simp)]

/-- C8: a document with at least one page and no spans on any page returns
the title-detector output with an empty outline; the heading pass is short-
circuited. -/
theorem no_spans_short_circuit (doc : Document) (h1 : doc.pages ≠ [])
    (h2 : ∀ pg ∈ doc.pages, ∀ b ∈ pg.blocks, ∀ l ∈ b.lines, l.spans = []) :
    process_pdf doc = { title := find_document_title doc.pages.headI, outline := [] } := by
  unfold process_pdf
  rw [if_neg (by simp [List.isEmpty_iff, h1])]
  rw [if_pos (by rw [allRoundedSizes_eq_nil h2]; rfl)]

/-- C8 (witness): the concrete one-page document with an image block and a
span-less line short-circuits to the detector title (here "Untitled
Document") with an empty outline. -/
theorem no_spans_short_circuit_witness :
    spanlessDoc.pages ≠ [] ∧
    (∀ pg ∈ spanlessDoc.pages, ∀ b ∈ pg.blocks, ∀ l ∈ b.lines, l.spans = []) ∧
    process_pdf spanlessDoc =
      { title := find_document_title spanlessDoc.pages.headI, outline := [] } :=
  ⟨by decide, by decide,
    no_spans_short_circuit spanlessDoc (by decide) (by decide)⟩

/-- C9: de-duplication keys on the raw lowercase line text while entries
carry the prefix-stripped text, so the distinct lines "1. Summary" and
"2. Summary" both emit entries whose text fields are the identical string
"Summary": the outline can contain repeated heading texts. -/
theorem duplicate_heading_texts :
    process_pdf dupDoc =
      { title := "My Doc",
        outline := [⟨"H3", "Summary", 1⟩, ⟨"H3", "Summary", 1⟩] } ∧
    ¬((process_pdf dupDoc).outline.map (fun e => e.text)).Nodup := by
  constructor
  · decide
  · decide

/-- C4 (counterexample): in the document whose page two holds the bold
numbered line "1. Annual Report 2024", the emitted entry's prefix-stripped
text lowercases exactly to the title's lowercase text, refuting the claim
that no outline entry's text can lowercase to the title's. -/
theorem title_text_echo_counterexample :
    ((process_pdf titleEchoDoc).outline.any
      (fun e => strLowerS e.text == strLowerS (process_pdf titleEchoDoc).title)) = true := by
  decide

/-- C4 (amended): the de-duplication set is seeded with the lowercase title
before the pass begins, so a line whose raw lowercase text equals the
title's lowercase text leaves the pass state unchanged wherever it occurs
in the processed line sequence — it never produces an outline entry.  (As
the counterexample shows, an entry whose prefix-stripped text lowercases to
the title can still appear when the raw line text differs, for instance by
a numbered prefix.) -/
theorem title_line_suppressed (doc : Document) (pre post : List (Nat × Line))
    (p : Nat) (l : Line)
    (hseq : linesSeq doc = pre ++ (p, l) :: post)
    (hl : strLowerS (lineTextOf l) =
      strLowerS (find_document_title doc.pages.headI)) :
    runPass (sizeToLevelOf doc) (bodySizeOf doc)
        (initState (find_document_title doc.pages.headI)) (pre ++ [(p, l)]) =
      runPass (sizeToLevelOf doc) (bodySizeOf doc)
        (initState (find_document_title doc.pages.headI)) pre := by
  rw [runPass_append]
  show headingStep (sizeToLevelOf doc) (bodySizeOf doc) p
      (runPass (sizeToLevelOf doc) (bodySizeOf doc)
        (initState (find_document_title doc.pages.headI)) pre) l = _
  apply headingStep_skip
  rw [hl]
  apply runPass_processed_mem
  simp [initState]

/-- C4 (witness): in the one-page document whose title line also lies in
the clip band, processing that line leaves the state unchanged. -/
theorem title_line_suppressed_witness :
    linesSeq reportDoc = [] ++ (1, reportTitleLine) :: [(1, reportBodyLine)] ∧
    strLowerS (lineTextOf reportTitleLine) =
      strLowerS (find_document_title reportDoc.pages.headI) ∧
    runPass (sizeToLevelOf reportDoc) (bodySizeOf reportDoc)
        (initState (find_document_title reportDoc.pages.headI))
        ([] ++ [(1, reportTitleLine)]) =
      runPass (sizeToLevelOf reportDoc) (bodySizeOf reportDoc)
        (initState (find_document_title reportDoc.pages.headI)) [] :=
  ⟨by decide, by decide,
    title_line_suppressed reportDoc [] [(1, reportBodyLine)] 1 reportTitleLine
      (by decide) (by decide)⟩

/-- C10: when the title detector finds no candidates, the title is
"Untitled Document" and the de-duplication set is seeded with the literal
string "untitled document", so any line anywhere whose trimmed text
lowercases to "untitled document" leaves the pass state unchanged — it
never produces an outline entry, however it is styled. -/
theorem untitled_document_suppressed (doc : Document)
    (pre post : List (Nat × Line)) (p : Nat) (l : Line)
    (hne : doc.pages ≠ [])
    (hc : titleCandidates doc.pages.headI = [])
    (hseq : linesSeq doc = pre ++ (p, l) :: post)
    (hl : strLowerS (lineTextOf l) = "untitled document") :
    runPass (sizeToLevelOf doc) (bodySizeOf doc)
        (initState (find_document_title doc.pages.headI)) (pre ++ [(p, l)]) =
      runPass (sizeToLevelOf doc) (bodySizeOf doc)
        (initState (find_document_title doc.pages.headI)) pre := by
  have ht : find_document_title doc.pages.headI = "Untitled Document" := by
    unfold find_document_title
    rw [hc]
    rfl
  rw [runPass_append]
  show headingStep (sizeToLevelOf doc) (bodySizeOf doc) p
      (runPass (sizeToLevelOf doc) (bodySizeOf doc)
        (initState (find_document_title doc.pages.headI)) pre) l = _
  apply headingStep_skip
  rw [hl]
  apply runPass_processed_mem
  rw [ht]
  decide

/-- C10 (witness): in the document with an empty first page and a bold
20pt line reading "Untitled Document" on page two, processing that line
leaves the state unchanged. -/
theorem untitled_document_suppressed_witness :
    untitledDoc.pages ≠ [] ∧
    titleCandidates untitledDoc.pages.headI = [] ∧
    strLowerS (lineTextOf untitledLine) = "untitled document" ∧
    runPass (sizeToLevelOf untitledDoc) (bodySizeOf untitledDoc)
        (initState (find_document_title untitledDoc.pages.headI))
        ([] ++ [(2, untitledLine)]) =
      runPass (sizeToLevelOf untitledDoc) (bodySizeOf untitledDoc)
        (initState (find_document_title untitledDoc.pages.headI)) [] :=
  ⟨by decide, by decide, by decide,
    untitled_document_suppressed untitledDoc []
      [(2, mkLine1 "Plain body text to set the body size." 12 "TimesNewRoman" 200 215),
       (2, mkLine1 "More plain body text on this page." 12 "TimesNewRoman" 220 235)]
      2 untitledLine (by decide) (by decide) (by decide) (by decide)⟩

/-- C6: the heading pass examines only lines inside the vertical band from
10 to 90 percent of the page height: every line of the processed sequence
lies in the band of its page, and a line of positive height lying entirely
in the top or bottom 10 percent of its page is never part of the sequence,
so it never produces an outline entry.  The clip restriction itself is the
Span Source's, modelled from the spec. -/
theorem margin_exclusion (doc : Document) (pn : Nat) (l : Line) (pg : Page)
    (hpg : doc.pages[pn - 1]? = some pg)
    (hnd : l.bbox.y0 < l.bbox.y1)
    (hmargin : l.bbox.y1 ≤ pg.height * (1 / 10) ∨
      pg.height * (9 / 10) ≤ l.bbox.y0) :
    (pn, l) ∉ linesSeq doc ∧
    ∀ (pn2 : Nat) (l2 : Line), (pn2, l2) ∈ linesSeq doc →
      ∃ pg2, doc.pages[pn2 - 1]? = some pg2 ∧
        pg2.height * (1 / 10) ≤ l2.bbox.y0 ∧
        l2.bbox.y1 ≤ pg2.height * (9 / 10) := by
  have key : ∀ (pn2 : Nat) (l2 : Line), (pn2, l2) ∈ linesSeq doc →
      ∃ pg2, doc.pages[pn2 - 1]? = some pg2 ∧
        pg2.height * (1 / 10) ≤ l2.bbox.y0 ∧
        l2.bbox.y1 ≤ pg2.height * (9 / 10) := by
    intro pn2 l2 hmem
    unfold linesSeq at hmem
    rcases List.mem_flatMap.mp hmem with ⟨ip, hip, hm2⟩
    rcases List.mem_map.mp hm2 with ⟨l3, hl3, heq⟩
    obtain ⟨i, pgx⟩ := ip
    cases heq
    have hband : inClipBand pgx.height l2 = true := by
      unfold clippedLines at hl3
      rcases List.mem_flatMap.mp hl3 with ⟨b, _, hlf⟩
      exact (List.mem_filter.mp hlf).2
    unfold inClipBand at hband
    rw [Bool.and_eq_true] at hband
    refine ⟨pgx, ?_, of_decide_eq_true hband.1, of_decide_eq_true hband.2⟩
    simpa using List.mk_mem_enum_iff_getElem?.mp hip
  refine ⟨?_, key⟩
  intro hmem
  rcases key pn l hmem with ⟨pg2, hpg2, hband1, hband2⟩
  rw [hpg] at hpg2
  injection hpg2 with hpg3
  subst hpg3
  rcases hmargin with hm1 | hm2
  · exact absurd hnd (by linarith)
  · exact absurd hnd (by linarith)

/-- C6 (witness): the concrete header line sitting entirely inside the top
10 percent of its page is absent from the processed line sequence. -/
theorem margin_exclusion_witness :
    headerDoc.pages[1 - 1]? = some headerPage ∧
    headerLine.bbox.y0 < headerLine.bbox.y1 ∧
    headerLine.bbox.y1 ≤ headerPage.height * (1 / 10) ∧
    (1, headerLine) ∉ linesSeq headerDoc :=
  ⟨by decide, by decide, by decide,
    (margin_exclusion headerDoc 1 headerLine headerPage (by decide) (by decide)
      (Or.inl (by decide))).1⟩

/-- C3: when the kept heading sizes are S1, S2, S3, they are strictly
descending and all greater than the body size; the size-to-level map is
exactly [(S1, H1), (S2, H2), (S3, H3)]; every other distinct rounded size
above the body size is smaller than S3; and a considered bold line that
does not match the numbering pattern is emitted with the level mapped to
its first span's rounded size. -/
theorem level_ranking_law (doc : Document) (S1 S2 S3 : ℤ)
    (hk : keptSizes doc = [S1, S2, S3]) :
    (bodySizeOf doc < S3 ∧ S3 < S2 ∧ S2 < S1) ∧
    sizeToLevelOf doc = [(S1, "H1"), (S2, "H2"), (S3, "H3")] ∧
    (∀ s : ℤ, s ∈ allRoundedSizes doc → bodySizeOf doc < s →
      s ∉ ([S1, S2, S3] : List ℤ) → s < S3) ∧
    (∀ (pageNum : Nat) (st : PassState) (l : Line),
      ¬(lineTextOf l = "" ∨ (lineTextOf l).length < 3 ∨
        strLowerS (lineTextOf l) ∈ st.processed) →
      isBoldFont (l.spans.headI).font = true →
      matchesNumberingS (lineTextOf l) = false →
      ((pyRound (l.spans.headI).size = S1 →
        headingStep (sizeToLevelOf doc) (bodySizeOf doc) pageNum st l =
          emitEntry st "H1" (cleanTextS (lineTextOf l)) pageNum
            (strLowerS (lineTextOf l))) ∧
      (pyRound (l.spans.headI).size = S2 →
        headingStep (sizeToLevelOf doc) (bodySizeOf doc) pageNum st l =
          emitEntry st "H2" (cleanTextS (lineTextOf l)) pageNum
            (strLowerS (lineTextOf l))) ∧
      (pyRound (l.spans.headI).size = S3 →
        headingStep (sizeToLevelOf doc) (bodySizeOf doc) pageNum st l =
          emitEntry st "H3" (cleanTextS (lineTextOf l)) pageNum
            (strLowerS (lineTextOf l))))) := by
  have hsplit : headingSizesOf doc = [S1, S2, S3] ++ (headingSizesOf doc).drop 3 := by
    conv_lhs => rw [← List.take_append_drop 3 (headingSizesOf doc)]
    rw [show (headingSizesOf doc).take 3 = [S1, S2, S3] from hk]
  have hpw := headingSizes_pairwise_gt doc
  rw [hsplit] at hpw
  rcases List.pairwise_append.mp hpw with ⟨hpw3, _, hcross⟩
  have h21 : S2 < S1 := (List.pairwise_cons.mp hpw3).1 S2 (by simp)
  have h31 : S3 < S1 := (List.pairwise_cons.mp hpw3).1 S3 (by simp)
  have h32 : S3 < S2 :=
    (List.pairwise_cons.mp (List.pairwise_cons.mp hpw3).2).1 S3 (by simp)
  have hb3 : bodySizeOf doc < S3 := by
    apply headingSizes_mem_gt doc S3
    rw [hsplit]
    simp
  have hmap : sizeToLevelOf doc = [(S1, "H1"), (S2, "H2"), (S3, "H3")] := by
    unfold sizeToLevelOf
    rw [hk]
    simp [List.enum, List.enumFrom]
    exact ⟨rfl, rfl, rfl⟩
  refine ⟨⟨hb3, h32, h21⟩, hmap, ?_, ?_⟩
  · intro s hs hb hnot
    have hmem := mem_headingSizes_of_mem doc hs hb
    rw [hsplit] at hmem
    rcases List.mem_append.mp hmem with h3 | hrest
    · exact absurd h3 hnot
    · exact hcross S3 (by simp) s hrest
  · intro pageNum st l hg hbold hnum
    have hb21 : (S2 == S1) = false := beq_eq_false_iff_ne.mpr (ne_of_lt h21)
    have hb31 : (S3 == S1) = false := beq_eq_false_iff_ne.mpr (ne_of_lt h31)
    have hb32 : (S3 == S2) = false := beq_eq_false_iff_ne.mpr (ne_of_lt h32)
    have hL1 : List.lookup S1 [(S1, "H1"), (S2, "H2"), (S3, "H3")] = some "H1" := by
      simp [List.lookup]
    have hL2 : List.lookup S2 [(S1, "H1"), (S2, "H2"), (S3, "H3")] = some "H2" := by
      simp [List.lookup, hb21]
    have hL3 : List.lookup S3 [(S1, "H1"), (S2, "H2"), (S3, "H3")] = some "H3" := by
      simp [List.lookup, hb31, hb32]
    refine ⟨?_, ?_, ?_⟩ <;> intro hfs <;>
      · unfold headingStep
        rw [if_neg hg, hfs, hbold, hmap]
        simp [classifyLevel, hnum, hL1, hL2, hL3]

/-- C3 (witness): in the concrete document with body size 12 and kept
heading sizes 20, 18, 16, the bold non-numbered 18pt line is emitted with
level H2. -/
theorem level_ranking_law_witness :
    keptSizes rankDoc = [20, 18, 16] ∧
    (bodySizeOf rankDoc < 16 ∧ (16 : ℤ) < 18 ∧ (18 : ℤ) < 20) ∧
    sizeToLevelOf rankDoc = [(20, "H1"), (18, "H2"), (16, "H3")] ∧
    headingStep (sizeToLevelOf rankDoc) (bodySizeOf rankDoc) 1
        (initState "Big Title Here") rankLine =
      emitEntry (initState "Big Title Here") "H2"
        (cleanTextS (lineTextOf rankLine)) 1 (strLowerS (lineTextOf rankLine)) := by
  have h := level_ranking_law rankDoc 20 18 16 (by decide)
  exact ⟨by decide, h.1, h.2.1,
    (h.2.2.2 1 (initState "Big Title Here") rankLine (by decide) (by decide)
      (by decide)).2.1 (by decide)⟩
